import Mathlib

/-!
Shallow embedding of the discovery/research orchestration core of
`src/agents.py` (company discovery and research workflow).

Python strings are modelled as lists of code points (`List Nat`);
`str.strip` / `str.lower` are modelled on the ASCII range (the only
range exercised by the sentinel strings and the comparisons in the
source).  `TARGET_COMPANIES` is a positive integer or `float('inf')`,
modelled as `Option Nat` with `none` standing for the unlimited
sentinel.  Wall-clock time is modelled by rationals.  The external
LLM agents and the file system are modelled as inputs (oracle values)
to the functions that consume them.
-/

/-- Python strings as lists of code points. -/
abbrev Str := List Nat

/-- Code points of a Lean string literal, used to write the sentinel
strings of the source. -/
def strOf (s : String) : Str := s.data.map Char.toNat

/-- ASCII model of the whitespace class used by Python `str.strip`. -/
def isWS (n : Nat) : Bool :=
  n == 32 || n == 9 || n == 10 || n == 13 || n == 11 || n == 12

/-- ASCII model of Python `str.lower` on one code point. -/
def lowerChar (n : Nat) : Nat := if 65 ≤ n ∧ n ≤ 90 then n + 32 else n

/-- Python `s.strip()`: drop whitespace from both ends. -/
def strip (s : Str) : Str :=
  ((s.dropWhile isWS).reverse.dropWhile isWS).reverse

/-- Python `s.lower()`. -/
def lower (s : Str) : Str := s.map lowerChar

/-- The trimmed, case-folded form of a name, under which the registry
is required to be duplicate-free. -/
def normName (s : Str) : Str := lower (strip s)

/-- Python `needle in hay` needs a prefix test at each position. -/
def isPrefixStr : Str → Str → Bool
  | [], _ => true
  | _ :: _, [] => false
  | a :: as, b :: bs => a == b && isPrefixStr as bs

/-- Python substring test `needle in hay`. -/
def containsStr (needle : Str) : Str → Bool
  | [] => isPrefixStr needle []
  | b :: bs => isPrefixStr needle (b :: bs) || containsStr needle bs

/-- `TARGET_COMPANIES`: `some n` for a finite target, `none` for the
`float('inf')` "unlimited" sentinel. -/
abbrev Target := Option Nat

/-- Python `len(discovered_companies) >= TARGET_COMPANIES`
(always false against `float('inf')`). -/
def targetReachedB (len : Nat) : Target → Bool
  | none => false
  | some n => decide (n ≤ len)

/-- Python `len(discovered_companies) < TARGET_COMPANIES`
(always true against `float('inf')`). -/
def targetNotReachedB (len : Nat) : Target → Bool
  | none => true
  | some n => decide (len < n)

/-- The dict stored in `discovered_companies` (all seven keys are
always present in the source). -/
structure CompanyData where
  name : Str
  location : Str
  website : Str
  services : Str
  email : Str
  contact_details : Str
  detailed_report : Str
deriving DecidableEq, Repr

/-- The arguments of the `add_discovered_company` tool. -/
structure Candidate where
  company_name : Str
  location : Str
  website : Str
  services : Str
  email : Str
  contact_details : Str
deriving DecidableEq, Repr

/-- The distinct return strings of `add_discovered_company`. -/
inductive AddResult where
  /-- "Error: Company name is required" -/
  | validationError
  /-- "Target reached: {TARGET_COMPANIES} companies found" -/
  | targetReachedMsg
  /-- "Company {company_name} already exists" -/
  | duplicateMsg
  /-- "SUCCESS: Found {len} companies (target reached)" -/
  | successTargetMsg
  /-- "Successfully added company: {company_name}" -/
  | addedMsg
deriving DecidableEq, Repr

/-- The `company_data` dict built by `add_discovered_company` before
appending (all six argument fields stripped, empty report). -/
def newRecord (c : Candidate) : CompanyData :=
  { name := strip c.company_name
    location := strip c.location
    website := strip c.website
    services := strip c.services
    email := strip c.email
    contact_details := strip c.contact_details
    detailed_report := [] }

/-- `add_discovered_company` (src/agents.py lines 200-236): validation,
then the target cap, then the case-insensitive duplicate scan, then
append; the result message reports whether the insertion filled the cap. -/
def add_discovered_company (c : Candidate) (reg : List CompanyData) (t : Target) :
    AddResult × List CompanyData :=
  if strip c.company_name = [] then (.validationError, reg)
  else if targetReachedB reg.length t then (.targetReachedMsg, reg)
  else if reg.any (fun ex => decide (strip (lower ex.name) = lower (strip c.company_name))) then
    (.duplicateMsg, reg)
  else
    let reg' := reg ++ [newRecord c]
    if targetReachedB reg'.length t then (.successTargetMsg, reg') else (.addedMsg, reg')

/-- Fold a sequence of tool calls over a registry. -/
def foldAdds (reg : List CompanyData) (cs : List Candidate) (t : Target) : List CompanyData :=
  cs.foldl (fun r c => (add_discovered_company c r t).2) reg

/-- The registry produced by a sequence of `add_discovered_company`
calls from the initial empty `discovered_companies`. -/
def runAdds (cs : List Candidate) (t : Target) : List CompanyData :=
  foldAdds [] cs t

/-- The status markers exchanged with the workflow state machine
(string sentinels in the source; the error constructors carry the
formatted error text). -/
inductive Marker where
  | discoveryComplete
  | discoveryError (msg : Str)
  | researchProgress
  | allResearchComplete
  | researchError (msg : Str)
deriving DecidableEq, Repr

def sDiscoveryComplete : Str := strOf "DISCOVERY_COMPLETE"
def sAllResearchComplete : Str := strOf "ALL_RESEARCH_COMPLETE"
def sResearchProgress : Str := strOf "RESEARCH_PROGRESS"
def sErrorToken : Str := strOf "ERROR"
def sDiscoveryErrorColon : Str := strOf "DISCOVERY_ERROR: "
def sResearchErrorColon : Str := strOf "RESEARCH_ERROR: "
def sTargetReachedToken : Str := strOf "Target reached"
def sSuccessToken : Str := strOf "SUCCESS"

/-- The message content each marker is rendered to in the source
(`HumanMessage(content=...)` in the nodes). -/
def renderMarker : Marker → Str
  | .discoveryComplete => sDiscoveryComplete
  | .discoveryError m => sDiscoveryErrorColon ++ m
  | .researchProgress => sResearchProgress
  | .allResearchComplete => sAllResearchComplete
  | .researchError m => sResearchErrorColon ++ m

/-- The two possible values of `should_continue`: the "research" node
or the END of the graph. -/
inductive Decision where
  | research
  | endWorkflow
deriving DecidableEq, Repr

/-- `should_continue` (src/agents.py lines 518-551): substring checks
against the content of the last message, in source order, with the
global `discovered_companies` and `current_research_index`. -/
def should_continue (lastMessage : Str) (reg : List CompanyData) (idx : Nat) : Decision :=
  if containsStr sAllResearchComplete lastMessage = true then .endWorkflow
  else if containsStr sErrorToken lastMessage = true then .endWorkflow
  else if containsStr sDiscoveryComplete lastMessage = true ∧ 0 < reg.length then .research
  else if containsStr sResearchProgress lastMessage = true ∧ idx < reg.length then .research
  else if reg.length ≤ idx ∧ 0 < reg.length then .endWorkflow
  else .endWorkflow

/-- One row of the CSV persistence sink, in the column order of
`initialize_csv`. -/
structure CsvRow where
  company_name : Str
  location : Str
  website : Str
  services : Str
  email : Str
  contact_details : Str
  detailed_report : Str
deriving DecidableEq, Repr

/-- The row `add_company_to_csv` writes for a company dict (every key
is present, so the `.get(key, '')` defaults never fire). -/
def rowOf (c : CompanyData) : CsvRow :=
  { company_name := c.name
    location := c.location
    website := c.website
    services := c.services
    email := c.email
    contact_details := c.contact_details
    detailed_report := c.detailed_report }

/-- `add_company_to_csv` (src/agents.py lines 104-126).  `writeOk`
models whether the underlying file append succeeds; when it raises,
the exception is caught inside the function, the file is unchanged and
`False` is returned. -/
def add_company_to_csv (csv : List CsvRow) (c : CompanyData) (writeOk : Bool) :
    List CsvRow × Bool :=
  if writeOk then (csv ++ [rowOf c], true) else (csv, false)

/-- Outcome of one invocation of the external research agent: the
final message text, or the text of the exception it raised. -/
inductive AgentOutcome where
  | ok (report : Str)
  | raised (msg : Str)
deriving DecidableEq, Repr

/-- The global state read and written by `research_node`:
`discovered_companies`, `current_research_index`, and the CSV sink. -/
structure ResearchState where
  discovered_companies : List CompanyData
  current_research_index : Nat
  csv : List CsvRow
deriving DecidableEq, Repr

/-- `research_node` (src/agents.py lines 463-515): if the cursor is past
the registry, emit ALL_RESEARCH_COMPLETE; otherwise invoke the research
agent on the record at the cursor, attach its text to
`detailed_report`, append the row to the CSV (ignoring the returned
success flag), advance the cursor, and emit RESEARCH_PROGRESS.  An
exception from the agent is caught and emitted as RESEARCH_ERROR with
the state untouched. -/
def research_node (s : ResearchState) (agent : AgentOutcome) (writeOk : Bool) :
    ResearchState × Marker :=
  if h : s.discovered_companies.length ≤ s.current_research_index then
    (s, .allResearchComplete)
  else
    match agent with
    | .raised m => (s, .researchError (strOf "Research error: " ++ m))
    | .ok report =>
      let current_company :=
        s.discovered_companies.get ⟨s.current_research_index, by omega⟩
      let updated := { current_company with detailed_report := report }
      let csv' := (add_company_to_csv s.csv updated writeOk).1
      ({ discovered_companies :=
           s.discovered_companies.set s.current_research_index updated
         current_research_index := s.current_research_index + 1
         csv := csv' },
       .researchProgress)

/-- One attempt of the discovery loop as seen from the orchestrator:
the sequence of `add_discovered_company` tool calls the agent performs,
and the content of its final message. -/
structure AgentAttempt where
  adds : List Candidate
  finalMsg : Str

/-- `max_attempts` of the discovery loop. -/
def max_attempts : Nat := 10

/-- The `while` loop of `discovery_node` (src/agents.py lines 418-445):
loop while the registry is below target and attempts are below
`max_attempts`; each iteration invokes the discovery agent (whose tool
calls fold into the registry) and breaks early when the final message
contains "Target reached" or "SUCCESS".  Returns the registry and the
number of attempts performed. -/
def discoveryLoop (behave : Nat → AgentAttempt) (t : Target)
    (attempts : Nat) (reg : List CompanyData) : List CompanyData × Nat :=
  if h : targetNotReachedB reg.length t = true ∧ attempts < max_attempts then
    let att := behave (attempts + 1)
    let reg' := foldAdds reg att.adds t
    if containsStr sTargetReachedToken att.finalMsg = true ∨
        containsStr sSuccessToken att.finalMsg = true then
      (reg', attempts + 1)
    else
      discoveryLoop behave t (attempts + 1) reg'
  else (reg, attempts)
termination_by max_attempts - attempts
decreasing_by simp_wf; omega

/-- What one invocation of `discovery_node` did: the final registry,
the emitted marker, how many times the discovery agent was invoked,
and whether `enhanced_rate_limit` was called. -/
structure DiscoveryOutcome where
  registry : List CompanyData
  marker : Marker
  agentInvocations : Nat
  rateLimiterCalled : Bool
deriving Repr

/-- `discovery_node` (src/agents.py lines 396-462), on the non-raising
paths: if the registry already meets the target it returns
DISCOVERY_COMPLETE at once without touching the rate limiter or the
agent; otherwise it rate-limits once, runs the bounded discovery loop,
and returns DISCOVERY_COMPLETE. -/
def discovery_node (behave : Nat → AgentAttempt) (t : Target)
    (reg : List CompanyData) : DiscoveryOutcome :=
  if targetReachedB reg.length t = true then
    { registry := reg
      marker := .discoveryComplete
      agentInvocations := 0
      rateLimiterCalled := false }
  else
    let r := discoveryLoop behave t 0 reg
    { registry := r.1
      marker := .discoveryComplete
      agentInvocations := r.2
      rateLimiterCalled := true }

/-- `MIN_REQUEST_INTERVAL` (3 time-units). -/
def MIN_REQUEST_INTERVAL : ℚ := 3

/-- `MAX_REQUESTS_PER_MINUTE` (25 calls per rolling minute). -/
def MAX_REQUESTS_PER_MINUTE : Nat := 25

/-- The module-level rate limiter state (`last_request_time`,
`request_count`). -/
structure RateState where
  last_request_time : ℚ
  request_count : Nat
deriving DecidableEq, Repr

/-- `enhanced_rate_limit` (src/agents.py lines 68-90).  `now` is the
value of `time.time()` at entry; sleeps are modelled as exact, so the
grant timestamp written to `last_request_time` is `now` plus the total
time slept (the minimum-interval check reuses the stale `now` read
before the 60-unit sleep, exactly as the source does).  Returns the
new state and the grant timestamp. -/
def enhanced_rate_limit (st : RateState) (now : ℚ) : RateState × ℚ :=
  let count0 := if (60 : ℚ) < now - st.last_request_time then 0 else st.request_count
  let capped := MAX_REQUESTS_PER_MINUTE ≤ count0
  let count1 := if capped then 0 else count0
  let slept : ℚ := if capped then 60 else 0
  let wait : ℚ :=
    if now - st.last_request_time < MIN_REQUEST_INTERVAL then
      MIN_REQUEST_INTERVAL - (now - st.last_request_time)
    else 0
  let grant := now + slept + wait
  ({ last_request_time := grant, request_count := count1 + 1 }, grant)

/-- A sequence of `enhanced_rate_limit` calls: the `i`-th call enters at
the previous grant timestamp plus `ds[i]` (the elapsed time since the
previous grant).  Returns the list of grant timestamps. -/
def rateRun (st : RateState) : List ℚ → List ℚ
  | [] => []
  | d :: ds =>
    let step := enhanced_rate_limit st (st.last_request_time + d)
    step.2 :: rateRun step.1 ds

/-- Concrete data for scenario theorems: a candidate named "Acme". -/
def candAcme : Candidate :=
  { company_name := strOf "Acme"
    location := []
    website := []
    services := []
    email := []
    contact_details := [] }

/-- Registry after adding "Acme" with target 1 (it is at its cap). -/
def regAcme : List CompanyData := (add_discovered_company candAcme [] (some 1)).2

/-- A concrete company record for research-phase scenarios. -/
def mkComp (nm : String) : CompanyData :=
  { name := strOf nm
    location := []
    website := []
    services := []
    email := []
    contact_details := []
    detailed_report := [] }

/-- The spec scenario for C6: three discovered companies, cursor 0,
empty CSV. -/
def scenState0 : ResearchState :=
  { discovered_companies := [mkComp "A", mkComp "B", mkComp "C"]
    current_research_index := 0
    csv := [] }

/-- State after the first research step succeeds. -/
def scenState1 : ResearchState :=
  (research_node scenState0 (.ok (strOf "report A")) true).1

/-- Second research step: the agent raises. -/
def scenStep2 : ResearchState × Marker :=
  research_node scenState1 (.raised (strOf "boom")) true

/-- Delays for the C8 witness: 26 back-to-back calls. -/
def zeroDelays : List ℚ := List.replicate 26 0

/-! ## String lemmas -/

theorem isWS_lowerChar (n : Nat) : isWS (lowerChar n) = isWS n := by
  unfold lowerChar
  by_cases h : 65 ≤ n ∧ n ≤ 90
  · rw [if_pos h]
    have h1 : isWS (n + 32) = false := by simp [isWS]; omega
    have h2 : isWS n = false := by simp [isWS]; omega
    rw [h1, h2]
  · rw [if_neg h]

theorem isWS_comp_lowerChar : isWS ∘ lowerChar = isWS :=
  funext fun n => isWS_lowerChar n

theorem strip_lower (s : Str) : strip (lower s) = lower (strip s) := by
  simp only [strip, lower, List.dropWhile_map, isWS_comp_lowerChar, ← List.map_reverse]

theorem dropWhile_dropWhile (p : Nat → Bool) (l : List Nat) :
    (l.dropWhile p).dropWhile p = l.dropWhile p := by
  induction l with
  | nil => rfl
  | cons x xs ih =>
    rw [List.dropWhile_cons]
    by_cases h : p x = true
    · rw [if_pos h]; exact ih
    · rw [if_neg h, List.dropWhile_cons, if_neg h]

theorem dropWhile_head_false (p : Nat → Bool) :
    ∀ (l : List Nat) (x : Nat) (xs : List Nat), l.dropWhile p = x :: xs → p x = false := by
  intro l
  induction l with
  | nil => intro x xs h; simp [List.dropWhile] at h
  | cons a as ih =>
    intro x xs h
    rw [List.dropWhile_cons] at h
    by_cases hp : p a = true
    · rw [if_pos hp] at h; exact ih x xs h
    · rw [if_neg hp] at h
      injection h with h1 _
      subst h1
      exact Bool.eq_false_iff.mpr hp

theorem strip_idem (s : Str) : strip (strip s) = strip s := by
  have key : (strip s).dropWhile isWS = strip s := by
    cases hv : strip s with
    | nil => rfl
    | cons x xs =>
      have hsuf : ((s.dropWhile isWS).reverse.dropWhile isWS) <:+ (s.dropWhile isWS).reverse :=
        List.dropWhile_suffix _
      have hpre : strip s <+: s.dropWhile isWS := by
        have h := List.reverse_prefix.mpr hsuf
        simpa [strip] using h
      obtain ⟨r, hr⟩ := hpre
      rw [hv] at hr
      have hd : s.dropWhile isWS = x :: (xs ++ r) := by rw [← hr]; rfl
      have hx : isWS x = false := dropWhile_head_false isWS s x (xs ++ r) hd
      rw [List.dropWhile_cons, if_neg (by simp [hx])]
  have h2 : (strip s).reverse = (s.dropWhile isWS).reverse.dropWhile isWS := by
    simp only [strip, List.reverse_reverse]
  have hdef : strip (strip s) = (((strip s).dropWhile isWS).reverse.dropWhile isWS).reverse := rfl
  rw [hdef, key, h2, dropWhile_dropWhile, ← h2, List.reverse_reverse]

/-! ## Registry lemmas (C1, C2) -/

theorem add_pairwise (c : Candidate) (reg : List CompanyData) (t : Target)
    (h : reg.Pairwise (fun a b => normName a.name ≠ normName b.name)) :
    ((add_discovered_company c reg t).2).Pairwise
      (fun a b => normName a.name ≠ normName b.name) := by
  unfold add_discovered_company
  by_cases h1 : strip c.company_name = []
  · simpa [h1] using h
  by_cases h2 : targetReachedB reg.length t = true
  · simpa [h1, h2] using h
  by_cases h3 : reg.any
      (fun ex => decide (strip (lower ex.name) = lower (strip c.company_name))) = true
  · simpa [h1, h2, h3] using h
  · rw [if_neg h1, if_neg h2, if_neg h3]
    have hmem : ∀ a ∈ reg, normName a.name ≠ normName (newRecord c).name := by
      intro a ha heq
      rw [List.any_eq_true] at h3
      apply h3
      refine ⟨a, ha, ?_⟩
      rw [decide_eq_true_eq, strip_lower]
      show normName a.name = lower (strip c.company_name)
      rw [heq]
      show lower (strip (strip c.company_name)) = lower (strip c.company_name)
      rw [strip_idem]
    have hpw : (reg ++ [newRecord c]).Pairwise
        (fun a b => normName a.name ≠ normName b.name) := by
      refine List.pairwise_append.mpr ⟨h, List.pairwise_singleton _ _, ?_⟩
      intro a ha b hb
      rw [List.mem_singleton] at hb
      subst hb
      exact hmem a ha
    simp only [apply_ite Prod.snd, ite_self]
    exact hpw

/-- C1: for every sequence of `add_discovered_company` calls the
registry never contains two records whose names coincide after
trimming and case-folding, and any candidate whose trimmed case-folded
name matches an existing record leaves the registry unchanged. -/
theorem C1_registry_dedup_invariant :
    (∀ (cs : List Candidate) (t : Target),
      (runAdds cs t).Pairwise (fun a b => normName a.name ≠ normName b.name)) ∧
    (∀ (c : Candidate) (reg : List CompanyData) (t : Target),
      (∃ ex ∈ reg, normName ex.name = normName c.company_name) →
      (add_discovered_company c reg t).2 = reg) := by
  constructor
  · have step : ∀ (cs : List Candidate) (reg : List CompanyData) (t : Target),
        reg.Pairwise (fun a b => normName a.name ≠ normName b.name) →
        (foldAdds reg cs t).Pairwise (fun a b => normName a.name ≠ normName b.name) := by
      intro cs
      induction cs with
      | nil => intro reg t h; exact h
      | cons c cs ih =>
        intro reg t h
        simp only [foldAdds, List.foldl_cons]
        exact ih _ t (add_pairwise c reg t h)
    intro cs t
    exact step cs [] t List.Pairwise.nil
  · rintro c reg t ⟨ex, hex, heq⟩
    unfold add_discovered_company
    by_cases h1 : strip c.company_name = []
    · simp [h1]
    by_cases h2 : targetReachedB reg.length t = true
    · simp [h1, h2]
    · have h3 : reg.any
          (fun e => decide (strip (lower e.name) = lower (strip c.company_name))) = true := by
        rw [List.any_eq_true]
        refine ⟨ex, hex, ?_⟩
        rw [decide_eq_true_eq, strip_lower]
        exact heq
      simp [h1, h2, h3]

/-- Closed instance of the duplicate-rejection clause of C1. -/
theorem C1_registry_dedup_invariant_witness :
    (add_discovered_company candAcme regAcme (some 5)).2 = regAcme :=
  C1_registry_dedup_invariant.2 candAcme regAcme (some 5) (by decide)

theorem add_length_le (c : Candidate) (reg : List CompanyData) (n : Nat)
    (h : reg.length ≤ n) :
    ((add_discovered_company c reg (some n)).2).length ≤ n := by
  unfold add_discovered_company
  by_cases h1 : strip c.company_name = []
  · simpa [h1] using h
  by_cases h2 : targetReachedB reg.length (some n) = true
  · simpa [h1, h2] using h
  by_cases h3 : reg.any
      (fun ex => decide (strip (lower ex.name) = lower (strip c.company_name))) = true
  · simpa [h1, h2, h3] using h
  · have hlt : reg.length < n := by
      unfold targetReachedB at h2
      simp only [decide_eq_true_eq] at h2
      omega
    rw [if_neg h1, if_neg h2, if_neg h3]
    simp only [apply_ite Prod.snd, ite_self, List.length_append, List.length_singleton]
    omega

/-- C2: with a finite target the registry never grows beyond the
target; when the registry already holds (at least) `target_count`
records, `add_discovered_company` rejects and leaves it unchanged. -/
theorem C2_target_cap :
    (∀ (cs : List Candidate) (n : Nat), (runAdds cs (some n)).length ≤ n) ∧
    (∀ (c : Candidate) (reg : List CompanyData) (n : Nat), n ≤ reg.length →
      (add_discovered_company c reg (some n)).2 = reg ∧
      ((add_discovered_company c reg (some n)).1 = AddResult.validationError ∨
       (add_discovered_company c reg (some n)).1 = AddResult.targetReachedMsg)) := by
  constructor
  · have step : ∀ (cs : List Candidate) (reg : List CompanyData) (n : Nat),
        reg.length ≤ n → (foldAdds reg cs (some n)).length ≤ n := by
      intro cs
      induction cs with
      | nil => intro reg n h; exact h
      | cons c cs ih =>
        intro reg n h
        simp only [foldAdds, List.foldl_cons]
        exact ih _ n (add_length_le c reg n h)
    intro cs n
    exact step cs [] n (by simp)
  · intro c reg n h
    unfold add_discovered_company
    by_cases h1 : strip c.company_name = []
    · simp [h1]
    · have h2 : targetReachedB reg.length (some n) = true := by
        unfold targetReachedB
        simpa using h
      simp [h1, h2]

/-- Closed instance of the cap-rejection clause of C2. -/
theorem C2_target_cap_witness :
    (add_discovered_company candAcme regAcme (some 1)).2 = regAcme ∧
    ((add_discovered_company candAcme regAcme (some 1)).1 = AddResult.validationError ∨
     (add_discovered_company candAcme regAcme (some 1)).1 = AddResult.targetReachedMsg) :=
  C2_target_cap.2 candAcme regAcme 1 (by decide)

/-! ## Signal ordering (C7) -/

/-- C7 counterexample: with target 1 and the registry already holding
"Acme" (built by a real `add` call), the duplicate candidate "Acme" is
answered with the target-reached message, not the duplicate message:
the source checks the cap before scanning for duplicates. -/
theorem C7_counterexample :
    (regAcme.any (fun ex => decide (normName ex.name = normName candAcme.company_name))) = true ∧
    strip candAcme.company_name ≠ [] ∧
    (add_discovered_company candAcme regAcme (some 1)).1 = AddResult.targetReachedMsg ∧
    (add_discovered_company candAcme regAcme (some 1)).1 ≠ AddResult.duplicateMsg := by
  decide

/-- C7 amended: a blank name always yields the validation signal; for a
non-blank candidate the target-reached rejection is checked first and
applies even to duplicates; the duplicate signal is returned only when
the registry is still below target; every rejection leaves the registry
unchanged. -/
theorem C7_signal_order :
    (∀ (c : Candidate) (reg : List CompanyData) (t : Target),
      strip c.company_name = [] →
      add_discovered_company c reg t = (AddResult.validationError, reg)) ∧
    (∀ (c : Candidate) (reg : List CompanyData) (t : Target),
      strip c.company_name ≠ [] → targetReachedB reg.length t = true →
      add_discovered_company c reg t = (AddResult.targetReachedMsg, reg)) ∧
    (∀ (c : Candidate) (reg : List CompanyData) (t : Target),
      strip c.company_name ≠ [] → targetReachedB reg.length t = false →
      (∃ ex ∈ reg, normName ex.name = normName c.company_name) →
      add_discovered_company c reg t = (AddResult.duplicateMsg, reg)) := by
  refine ⟨?_, ?_, ?_⟩
  · intro c reg t h1
    simp [add_discovered_company, h1]
  · intro c reg t h1 h2
    simp [add_discovered_company, h1, h2]
  · intro c reg t h1 h2 hex
    have h3 : reg.any
        (fun e => decide (strip (lower e.name) = lower (strip c.company_name))) = true := by
      rw [List.any_eq_true]
      obtain ⟨ex, hm, heq⟩ := hex
      exact ⟨ex, hm, by rw [decide_eq_true_eq, strip_lower]; exact heq⟩
    simp [add_discovered_company, h1, h2, h3]

/-- Closed instance of the target-before-duplicate clause of C7. -/
theorem C7_signal_order_witness :
    add_discovered_company candAcme regAcme (some 1) = (AddResult.targetReachedMsg, regAcme) :=
  C7_signal_order.2.1 candAcme regAcme (some 1) (by decide) (by decide)

/-! ## Substring lemmas and the transition function (C3) -/

theorem isPrefixStr_append (n : Str) :
    ∀ (h t : Str), isPrefixStr n h = true → isPrefixStr n (h ++ t) = true := by
  induction n with
  | nil => intro h t _; rfl
  | cons a as ih =>
    intro h t hp
    cases h with
    | nil => simp [isPrefixStr] at hp
    | cons b bs =>
      simp only [isPrefixStr, Bool.and_eq_true] at hp
      simp only [List.cons_append, isPrefixStr, Bool.and_eq_true]
      exact ⟨hp.1, ih bs t hp.2⟩

theorem containsStr_nil_needle : ∀ (l : Str), containsStr [] l = true := by
  intro l
  cases l <;> simp [containsStr, isPrefixStr]

theorem containsStr_append_left (n : Str) :
    ∀ (h t : Str), containsStr n h = true → containsStr n (h ++ t) = true := by
  intro h
  induction h with
  | nil =>
    intro t hc
    cases n with
    | nil => exact containsStr_nil_needle t
    | cons a as => simp [containsStr, isPrefixStr] at hc
  | cons b bs ih =>
    intro t hc
    simp only [containsStr, Bool.or_eq_true] at hc
    rcases hc with hc | hc
    · simp only [List.cons_append, containsStr, Bool.or_eq_true]
      left
      have hp := isPrefixStr_append n (b :: bs) t hc
      simpa using hp
    · simp only [List.cons_append, containsStr, Bool.or_eq_true]
      right
      exact ih t hc

/-- C3: `should_continue` realizes the spec's transition table: it
returns the research step exactly for a discovery-complete marker with
a non-empty registry or a research-progress marker with the cursor
strictly below the registry length; error markers (with any exception
text), the all-research-complete marker, discovery-complete over an
empty registry, and a research-progress marker whose cursor has
reached the registry length all go to END. -/
theorem C3_should_continue_table :
    ∀ (m : Marker) (reg : List CompanyData) (idx : Nat),
      (should_continue (renderMarker m) reg idx = Decision.research ↔
        (m = Marker.discoveryComplete ∧ 0 < reg.length) ∨
        (m = Marker.researchProgress ∧ idx < reg.length)) ∧
      (((∃ e, m = Marker.discoveryError e) ∨ (∃ e, m = Marker.researchError e) ∨
          m = Marker.allResearchComplete ∨
          (m = Marker.discoveryComplete ∧ reg.length = 0) ∨
          (m = Marker.researchProgress ∧ reg.length ≤ idx)) →
        should_continue (renderMarker m) reg idx = Decision.endWorkflow) := by
  have main : ∀ (m : Marker) (reg : List CompanyData) (idx : Nat),
      should_continue (renderMarker m) reg idx = Decision.research ↔
        (m = Marker.discoveryComplete ∧ 0 < reg.length) ∨
        (m = Marker.researchProgress ∧ idx < reg.length) := by
    intro m reg idx
    cases m with
    | discoveryComplete =>
      have c1 : containsStr sAllResearchComplete sDiscoveryComplete = false := by decide
      have c2 : containsStr sErrorToken sDiscoveryComplete = false := by decide
      have c3 : containsStr sDiscoveryComplete sDiscoveryComplete = true := by decide
      have c4 : containsStr sResearchProgress sDiscoveryComplete = false := by decide
      simp only [renderMarker, should_continue, c1, c2, c3, c4]
      by_cases hlen : 0 < reg.length
      · simp [hlen]
      · simp [hlen]
    | researchProgress =>
      have c1 : containsStr sAllResearchComplete sResearchProgress = false := by decide
      have c2 : containsStr sErrorToken sResearchProgress = false := by decide
      have c3 : containsStr sDiscoveryComplete sResearchProgress = false := by decide
      have c4 : containsStr sResearchProgress sResearchProgress = true := by decide
      simp only [renderMarker, should_continue, c1, c2, c3, c4]
      by_cases hidx : idx < reg.length
      · simp [hidx]
      · simp [hidx]
    | allResearchComplete =>
      have c1 : containsStr sAllResearchComplete sAllResearchComplete = true := by decide
      simp [renderMarker, should_continue, c1]
    | discoveryError e =>
      simp only [renderMarker, should_continue]
      by_cases hc1 : containsStr sAllResearchComplete (sDiscoveryErrorColon ++ e) = true
      · simp [hc1]
      · have hc2 : containsStr sErrorToken (sDiscoveryErrorColon ++ e) = true :=
          containsStr_append_left sErrorToken sDiscoveryErrorColon e (by decide)
        simp [hc1, hc2]
    | researchError e =>
      simp only [renderMarker, should_continue]
      by_cases hc1 : containsStr sAllResearchComplete (sResearchErrorColon ++ e) = true
      · simp [hc1]
      · have hc2 : containsStr sErrorToken (sResearchErrorColon ++ e) = true :=
          containsStr_append_left sErrorToken sResearchErrorColon e (by decide)
        simp [hc1, hc2]
  intro m reg idx
  refine ⟨main m reg idx, ?_⟩
  intro hcond
  cases hsc : should_continue (renderMarker m) reg idx with
  | endWorkflow => rfl
  | research =>
    exfalso
    have hr := (main m reg idx).mp hsc
    rcases hcond with ⟨e, rfl⟩ | ⟨e, rfl⟩ | rfl | ⟨rfl, hlen⟩ | ⟨rfl, hle⟩ <;>
      rcases hr with ⟨hm, hl⟩ | ⟨hm, hl⟩ <;> simp_all <;> omega

/-- Closed instance of the END clause of C3. -/
theorem C3_should_continue_table_witness :
    should_continue (renderMarker Marker.allResearchComplete) [] 0 = Decision.endWorkflow :=
  (C3_should_continue_table Marker.allResearchComplete [] 0).2 (Or.inr (Or.inr (Or.inl rfl)))

/-! ## Research node (C4, C6, C9) -/

/-- C4: one invocation of `research_node` processes exactly one pending
record: at cursor = length it emits ALL_RESEARCH_COMPLETE and changes
nothing; below length (agent succeeding, write succeeding) it attaches
the returned text verbatim, appends the row to the sink, advances the
cursor by exactly one and emits RESEARCH_PROGRESS; the cursor never
decreases, the invariant cursor ≤ length is preserved, and when the
ALL_RESEARCH_COMPLETE marker is emitted the cursor equals the registry
length. -/
theorem C4_research_single_step :
    ∀ (s : ResearchState) (a : AgentOutcome) (w : Bool) (r : Str),
      (s.current_research_index = s.discovered_companies.length →
        research_node s a w = (s, Marker.allResearchComplete)) ∧
      (∀ hlt : s.current_research_index < s.discovered_companies.length,
        research_node s (AgentOutcome.ok r) true =
          ({ discovered_companies := s.discovered_companies.set s.current_research_index
               { s.discovered_companies.get ⟨s.current_research_index, hlt⟩ with
                 detailed_report := r }
             current_research_index := s.current_research_index + 1
             csv := s.csv ++ [rowOf { s.discovered_companies.get
                 ⟨s.current_research_index, hlt⟩ with detailed_report := r }] },
           Marker.researchProgress)) ∧
      (s.current_research_index ≤ (research_node s a w).1.current_research_index) ∧
      (s.current_research_index ≤ s.discovered_companies.length →
        (research_node s a w).1.current_research_index ≤
          (research_node s a w).1.discovered_companies.length ∧
        ((research_node s a w).2 = Marker.allResearchComplete →
          (research_node s a w).1.current_research_index =
            (research_node s a w).1.discovered_companies.length)) := by
  intro s a w r
  refine ⟨?_, ?_, ?_, ?_⟩
  · intro heq
    simp only [research_node]
    rw [dif_pos (by omega)]
  · intro hlt
    simp only [research_node]
    rw [dif_neg (by omega)]
    rfl
  · by_cases hge : s.discovered_companies.length ≤ s.current_research_index
    · simp only [research_node]
      rw [dif_pos hge]
    · simp only [research_node]
      rw [dif_neg hge]
      cases a with
      | raised m => exact Nat.le_refl _
      | ok rep => exact Nat.le_succ _
  · intro hle
    by_cases hge : s.discovered_companies.length ≤ s.current_research_index
    · simp only [research_node]
      rw [dif_pos hge]
      exact ⟨hle, fun _ => Nat.le_antisymm hle hge⟩
    · simp only [research_node]
      rw [dif_neg hge]
      cases a with
      | raised m => exact ⟨hle, fun habs => by cases habs⟩
      | ok rep =>
        refine ⟨?_, fun habs => by cases habs⟩
        simp only [List.length_set]
        omega

/-- Closed instance of the success step of C4. -/
theorem C4_research_single_step_witness :
    research_node scenState0 (AgentOutcome.ok (strOf "report A")) true =
      ({ discovered_companies := scenState0.discovered_companies.set 0
           { scenState0.discovered_companies.get ⟨0, by decide⟩ with
             detailed_report := strOf "report A" }
         current_research_index := 1
         csv := scenState0.csv ++ [rowOf { scenState0.discovered_companies.get
             ⟨0, by decide⟩ with detailed_report := strOf "report A" }] },
       Marker.researchProgress) :=
  (C4_research_single_step scenState0 (AgentOutcome.ok (strOf "report A")) true
    (strOf "report A")).2.1 (by decide)

/-- C6: an exception from the research agent at cursor k yields the
research-error marker with the whole state (cursor, registry, sink)
untouched; in the spec scenario (3 companies, agent raises on the
2nd) exactly one row — the first company's — is persisted and the
cursor is left at 1. -/
theorem C6_research_error_no_advance :
    (∀ (s : ResearchState) (m : Str) (w : Bool),
      s.current_research_index < s.discovered_companies.length →
      research_node s (AgentOutcome.raised m) w =
        (s, Marker.researchError (strOf "Research error: " ++ m))) ∧
    (scenStep2.1.csv.length = 1 ∧
     scenStep2.1.current_research_index = 1 ∧
     scenStep2.2 = Marker.researchError (strOf "Research error: " ++ strOf "boom") ∧
     scenState1.csv = [rowOf { mkComp "A" with detailed_report := strOf "report A" }]) := by
  constructor
  · intro s m w h
    simp only [research_node]
    rw [dif_neg (by omega)]
  · decide

/-- Closed instance of the error step of C6. -/
theorem C6_research_error_no_advance_witness :
    research_node scenState1 (AgentOutcome.raised (strOf "boom")) true =
      (scenState1, Marker.researchError (strOf "Research error: " ++ strOf "boom")) :=
  C6_research_error_no_advance.1 scenState1 (strOf "boom") true (by decide)

/-- C9: a persistence write failure is swallowed: `add_company_to_csv`
returns `False` with the sink unchanged, and `research_node` still
keeps the attached in-memory report, advances the cursor, and emits
RESEARCH_PROGRESS (no error marker). -/
theorem C9_persistence_failure_not_fatal :
    (∀ (csv : List CsvRow) (c : CompanyData),
      add_company_to_csv csv c false = (csv, false)) ∧
    (∀ (s : ResearchState) (r : Str)
      (hlt : s.current_research_index < s.discovered_companies.length),
      research_node s (AgentOutcome.ok r) false =
        ({ discovered_companies := s.discovered_companies.set s.current_research_index
             { s.discovered_companies.get ⟨s.current_research_index, hlt⟩ with
               detailed_report := r }
           current_research_index := s.current_research_index + 1
           csv := s.csv },
         Marker.researchProgress)) := by
  constructor
  · intro csv c; rfl
  · intro s r hlt
    simp only [research_node]
    rw [dif_neg (by omega)]
    rfl

/-- Closed instance of C9: failed write, cursor still advances. -/
theorem C9_persistence_failure_not_fatal_witness :
    research_node scenState0 (AgentOutcome.ok (strOf "report A")) false =
      ({ discovered_companies := scenState0.discovered_companies.set 0
           { scenState0.discovered_companies.get ⟨0, by decide⟩ with
             detailed_report := strOf "report A" }
         current_research_index := 1
         csv := scenState0.csv },
       Marker.researchProgress) :=
  C9_persistence_failure_not_fatal.2 scenState0 (strOf "report A") (by decide)

/-! ## Discovery node (C5, C10) -/

theorem discoveryLoop_attempts_le (behave : Nat → AgentAttempt) (t : Target) :
    ∀ (k attempts : Nat) (reg : List CompanyData),
      max_attempts - attempts ≤ k → attempts ≤ max_attempts →
      (discoveryLoop behave t attempts reg).2 ≤ max_attempts := by
  intro k
  induction k with
  | zero =>
    intro attempts reg hk ha
    rw [discoveryLoop]
    rw [dif_neg (by omega)]
    exact ha
  | succ n ih =>
    intro attempts reg hk ha
    rw [discoveryLoop]
    by_cases hcond : targetNotReachedB reg.length t = true ∧ attempts < max_attempts
    · rw [dif_pos hcond]
      by_cases hbrk : containsStr sTargetReachedToken (behave (attempts + 1)).finalMsg = true ∨
          containsStr sSuccessToken (behave (attempts + 1)).finalMsg = true
      · rw [if_pos hbrk]
        exact hcond.2
      · rw [if_neg hbrk]
        exact ih (attempts + 1) _ (by omega) (by omega)
    · rw [dif_neg hcond]
      exact ha

/-- C5: the discovery loop is bounded: whatever the external agent does
(including never signalling success and never adding a company),
`discovery_node` invokes it at most `max_attempts` (10) times and then
emits the single DISCOVERY_COMPLETE marker — partial results are not
reported as a failure. -/
theorem C5_discovery_terminates :
    ∀ (behave : Nat → AgentAttempt) (t : Target) (reg : List CompanyData),
      (discovery_node behave t reg).agentInvocations ≤ max_attempts ∧
      (discovery_node behave t reg).marker = Marker.discoveryComplete := by
  intro behave t reg
  unfold discovery_node
  by_cases h : targetReachedB reg.length t = true
  · rw [if_pos h]
    exact ⟨Nat.zero_le _, rfl⟩
  · rw [if_neg h]
    refine ⟨?_, rfl⟩
    exact discoveryLoop_attempts_le behave t max_attempts 0 reg (by omega) (by omega)

/-- C10: when the registry already holds at least the (finite) target,
`discovery_node` returns DISCOVERY_COMPLETE at once: no rate-limiter
call, no agent invocation, registry unchanged. -/
theorem C10_discovery_skip_when_full :
    ∀ (behave : Nat → AgentAttempt) (n : Nat) (reg : List CompanyData),
      n ≤ reg.length →
      discovery_node behave (some n) reg =
        { registry := reg
          marker := Marker.discoveryComplete
          agentInvocations := 0
          rateLimiterCalled := false } := by
  intro behave n reg h
  unfold discovery_node
  rw [if_pos (show targetReachedB reg.length (some n) = true by
    unfold targetReachedB; simpa using h)]

/-- Closed instance of C10. -/
theorem C10_discovery_skip_when_full_witness :
    discovery_node (fun _ => ⟨[], []⟩) (some 1) regAcme =
      { registry := regAcme
        marker := Marker.discoveryComplete
        agentInvocations := 0
        rateLimiterCalled := false } :=
  C10_discovery_skip_when_full (fun _ => ⟨[], []⟩) 1 regAcme (by decide)

/-! ## Rate limiter (C8) -/

theorem rate_limit_grant_ge (st : RateState) (now : ℚ) :
    st.last_request_time + MIN_REQUEST_INTERVAL ≤ (enhanced_rate_limit st now).2 := by
  dsimp only [enhanced_rate_limit, MIN_REQUEST_INTERVAL]
  split_ifs <;> linarith

theorem rateRun_chain (st : RateState) :
    ∀ (ds : List ℚ), List.Chain' (fun a b => a + MIN_REQUEST_INTERVAL ≤ b) (rateRun st ds) := by
  intro ds
  induction ds generalizing st with
  | nil => exact List.chain'_nil
  | cons d ds ih =>
    rw [rateRun]
    refine List.chain'_cons'.mpr ⟨?_, ih _⟩
    intro b hb
    cases ds with
    | nil => simp [rateRun] at hb
    | cons d' ds' =>
      rw [rateRun] at hb
      simp only [List.head?_cons, Option.mem_def, Option.some.injEq] at hb
      subst hb
      have hg := rate_limit_grant_ge
        (enhanced_rate_limit st (st.last_request_time + d)).1
        ((enhanced_rate_limit st (st.last_request_time + d)).1.last_request_time + d')
      exact hg

theorem rateRun_spacing (st : RateState) (ds : List ℚ) :
    ∀ (k : Nat) (fi fj : Fin (rateRun st ds).length), fi.val + k = fj.val →
      (rateRun st ds).get fi + MIN_REQUEST_INTERVAL * (k : ℚ) ≤ (rateRun st ds).get fj := by
  intro k
  induction k with
  | zero =>
    intro fi fj hk
    have hfin : fi = fj := Fin.ext (by omega)
    subst hfin
    simp
  | succ n ih =>
    intro fi fj hk
    have hmid : fi.val + n < (rateRun st ds).length := by
      have := fj.isLt
      omega
    have hstep : (rateRun st ds).get ⟨fi.val + n, hmid⟩ + MIN_REQUEST_INTERVAL ≤
        (rateRun st ds).get fj := by
      have hchain := rateRun_chain st ds
      rw [List.chain'_iff_get] at hchain
      have h2 : fi.val + n + 1 < (rateRun st ds).length := by
        have := fj.isLt
        omega
      have hlt : fi.val + n < (rateRun st ds).length - 1 := by omega
      have hcg := hchain (fi.val + n) hlt
      have hfj : (⟨fi.val + n + 1, h2⟩ : Fin (rateRun st ds).length) = fj := by
        apply Fin.ext
        show fi.val + n + 1 = fj.val
        omega
      rw [← hfj]
      exact hcg
    have hih := ih fi ⟨fi.val + n, hmid⟩ rfl
    have hcast : ((n + 1 : Nat) : ℚ) = (n : ℚ) + 1 := by push_cast; ring
    rw [hcast]
    unfold MIN_REQUEST_INTERVAL at hih hstep ⊢
    linarith

/-- C8: over any run of the rate limiter, (a) consecutive grant
timestamps are at least `MIN_REQUEST_INTERVAL` (3 time-units) apart,
and (b) any two grants 25 (`MAX_REQUESTS_PER_MINUTE`) positions apart
are separated by strictly more than 60 time-units, so no rolling
60-unit window ever contains more than 25 grants. -/
theorem C8_rate_limiter :
    (∀ (st : RateState) (ds : List ℚ),
      List.Chain' (fun a b => a + MIN_REQUEST_INTERVAL ≤ b) (rateRun st ds)) ∧
    (∀ (st : RateState) (ds : List ℚ) (fi fj : Fin (rateRun st ds).length),
      fi.val + MAX_REQUESTS_PER_MINUTE ≤ fj.val →
      (rateRun st ds).get fi + 60 < (rateRun st ds).get fj) := by
  refine ⟨rateRun_chain, ?_⟩
  intro st ds fi fj hij
  have hk : fi.val + (fj.val - fi.val) = fj.val := by
    unfold MAX_REQUESTS_PER_MINUTE at hij
    omega
  have hsp := rateRun_spacing st ds (fj.val - fi.val) fi fj hk
  have h25 : (25 : ℚ) ≤ ((fj.val - fi.val : Nat) : ℚ) := by
    have : 25 ≤ fj.val - fi.val := by
      unfold MAX_REQUESTS_PER_MINUTE at hij
      omega
    exact_mod_cast this
  unfold MIN_REQUEST_INTERVAL at hsp
  linarith

/-- Closed instance of C8(b): grants 0 and 25 of a burst of 26
back-to-back calls are more than 60 time-units apart. -/
theorem C8_rate_limiter_witness :
    (rateRun ⟨0, 0⟩ zeroDelays).get ⟨0, by decide⟩ + 60 <
      (rateRun ⟨0, 0⟩ zeroDelays).get ⟨25, by decide⟩ :=
  C8_rate_limiter.2 ⟨0, 0⟩ zeroDelays ⟨0, by decide⟩ ⟨25, by decide⟩ (by decide)
